import Mathlib

/-!
Shallow embedding of the NetVision performance-monitoring core
(`src/performance_monitor.py` and `src/network_metrics_manager.py`).

Python dictionaries are modelled as insertion-ordered association lists,
`collections.deque(maxlen=cap)` as a list with FIFO eviction on append,
floats as rationals, and `datetime.now()` values as explicit timestamp
arguments.  Network probe outcomes (ping, DNS lookup, TCP connect) are
environmental inputs and are passed in explicitly.
-/

namespace NetVision

/-- Insertion-ordered association list, modelling a Python `dict`. -/
abbrev AList (β : Type) := List (String × β)

/-- Dict membership / item lookup: `d[k]` when `k in d`. -/
def alistLookup {β : Type} (d : AList β) (k : String) : Option β :=
  match d with
  | [] => none
  | (k', v) :: rest => if k' = k then some v else alistLookup rest k

/-- Python `d.get(k, dflt)`. -/
def alistGetD {β : Type} (d : AList β) (k : String) (dflt : β) : β :=
  (alistLookup d k).getD dflt

/-- Python `d[k] = v`: update in place, or append the new key at the end
(Python dicts preserve insertion order). -/
def alistSet {β : Type} (d : AList β) (k : String) (v : β) : AList β :=
  match d with
  | [] => [(k, v)]
  | (k', v') :: rest => if k' = k then (k', v) :: rest else (k', v') :: alistSet rest k v

/-- Append to a `collections.deque(maxlen := cap)`: when the deque is full,
the oldest (leftmost) element is evicted first. -/
def dequeAppend {α : Type} (cap : Nat) (q : List α) (v : α) : List α :=
  if q.length < cap then q ++ [v] else q.drop 1 ++ [v]


/-! Statistics helpers mirroring the `statistics` module calls in the source. -/

/-- Insert into a sorted list, keeping it sorted (ascending). -/
def insertSorted (v : ℚ) : List ℚ → List ℚ
  | [] => [v]
  | x :: xs => if v ≤ x then v :: x :: xs else x :: insertSorted v xs

/-- Sort ascending, as `sorted(data)` does inside `statistics.median`. -/
def sortAsc (l : List ℚ) : List ℚ := l.foldr insertSorted []

/-- Models `statistics.median`: middle element of the sorted data for odd length,
average of the two middle elements for even length.  The source only calls
it on non-empty data (guarded by a length check); the default 0 is
unreachable there. -/
def median (l : List ℚ) : ℚ :=
  let ss := sortAsc l
  let n := ss.length
  if n % 2 = 1 then ss.getD (n / 2) 0
  else (ss.getD (n / 2 - 1) 0 + ss.getD (n / 2) 0) / 2

/-- Models `statistics.mean`: arithmetic mean. -/
def mean (l : List ℚ) : ℚ := l.sum / (l.length : ℚ)

/-- Python `min(values)` on a non-empty list (default unreachable in the source). -/
def listMin (l : List ℚ) : ℚ :=
  match l with
  | [] => 0
  | x :: xs => xs.foldl min x

/-- Python `max(values)` on a non-empty list (default unreachable in the source). -/
def listMax (l : List ℚ) : ℚ :=
  match l with
  | [] => 0
  | x :: xs => xs.foldl max x

/-- Python `l[-n:]`: the last `n` elements (whole list when shorter). -/
def lastN {α : Type} (n : Nat) (l : List α) : List α := l.drop (l.length - n)

/-- The sample stream 0, 1, ..., n-1 as rationals, used for concrete
instantiations. -/
def rangeQ (n : Nat) : List ℚ := (List.range n).map Nat.cast

/-! The PerformanceMonitor state (`performance_monitor.py`, `__init__`). -/

/-- One timestamped entry of `historical_metrics`. -/
structure Sample where
  timestamp : Nat
  value : ℚ
deriving DecidableEq

/-- State of `PerformanceMonitor`.  The rings are
`defaultdict(lambda: deque(maxlen = cap))` with the capacities written in
`__init__`; `historical_metrics` is `defaultdict(lambda: defaultdict(list))`
(plain unbounded lists); `connection_retries` is `defaultdict(int)`. -/
structure PMState where
  latency : AList (List ℚ)
  packet_loss : AList (List ℚ)
  dns_resolution : AList (List ℚ)
  jitter : AList (List ℚ)
  connection_times : AList (List ℚ)
  historical_metrics : AList (AList (List Sample))
  connection_retries : AList Nat
  common_destinations : List String
deriving DecidableEq

/-- Freshly constructed monitor (`PerformanceMonitor.__init__`). -/
def pmInit : PMState :=
  { latency := []
    packet_loss := []
    dns_resolution := []
    jitter := []
    connection_times := []
    historical_metrics := []
    connection_retries := []
    common_destinations := ["8.8.8.8", "1.1.1.1", "www.google.com", "www.amazon.com",
      "www.microsoft.com", "www.cloudflare.com", "www.github.com"] }

/-- Models `self.<ring>[host].append(v)` on a `defaultdict` of bounded deques:
auto-vivifies the host entry, then appends with FIFO eviction. -/
def ringAppend (cap : Nat) (d : AList (List ℚ)) (host : String) (v : ℚ) : AList (List ℚ) :=
  alistSet d host (dequeAppend cap (alistGetD d host []) v)

/-- Models `self.historical_metrics[mt][host].append(dict(timestamp, value))`:
both defaultdict levels auto-vivify; the inner list is unbounded. -/
def histAppend (h : AList (AList (List Sample))) (mt host : String) (t : Nat) (v : ℚ) :
    AList (AList (List Sample)) :=
  let inner := alistGetD h mt []
  let samples := alistGetD inner host []
  alistSet h mt (alistSet inner host (samples ++ [⟨t, v⟩]))

/-- The latency record site in `measure_latency` (ring capacity 100). -/
def recordLatency (s : PMState) (host : String) (t : Nat) (v : ℚ) : PMState :=
  { s with latency := ringAppend 100 s.latency host v
           historical_metrics := histAppend s.historical_metrics "latency" host t v }

/-- The packet-loss record site in `measure_latency` (ring capacity 50). -/
def recordPacketLoss (s : PMState) (host : String) (t : Nat) (v : ℚ) : PMState :=
  { s with packet_loss := ringAppend 50 s.packet_loss host v
           historical_metrics := histAppend s.historical_metrics "packet_loss" host t v }

/-- The DNS record site in `measure_dns_resolution` (ring capacity 50). -/
def recordDnsResolution (s : PMState) (domain : String) (t : Nat) (v : ℚ) : PMState :=
  { s with dns_resolution := ringAppend 50 s.dns_resolution domain v
           historical_metrics := histAppend s.historical_metrics "dns_resolution" domain t v }

/-- The jitter record site in `measure_jitter` (ring capacity 50). -/
def recordJitter (s : PMState) (host : String) (t : Nat) (v : ℚ) : PMState :=
  { s with jitter := ringAppend 50 s.jitter host v
           historical_metrics := histAppend s.historical_metrics "jitter" host t v }

/-- The connection-time record site in `measure_connection_times` (ring capacity 50). -/
def recordConnectionTime (s : PMState) (host : String) (t : Nat) (v : ℚ) : PMState :=
  { s with connection_times := ringAppend 50 s.connection_times host v
           historical_metrics := histAppend s.historical_metrics "connection_time" host t v }

/-- Environmental outcome of one `_ping_host` subprocess invocation. -/
inductive PingOutcome where
  /-- exit status 0; the two regex extractions may each fail independently -/
  | parsed (avg_latency : Option ℚ) (packet_loss : Option ℚ)
  /-- non-zero exit status (`subprocess.CalledProcessError`) -/
  | calledProcessError
  /-- any other exception (timeout, missing binary, ...) -/
  | otherError
deriving DecidableEq

/-- Models `_ping_host`: returns `(avg_latency, packet_loss)`; a non-zero exit
status means unreachable and is reported as loss 100 with latency absent;
other errors yield no data at all. -/
def ping_host (r : PingOutcome) : Option ℚ × Option ℚ :=
  match r with
  | .parsed a p => (a, p)
  | .calledProcessError => (none, some 100)
  | .otherError => (none, none)

/-- Body of the per-host loop of `measure_latency`: record whichever of the
two values is present. -/
def measureLatencyHost (s : PMState) (host : String) (r : PingOutcome) (t : Nat) : PMState :=
  let res := ping_host r
  let s1 := match res.1 with
    | some v => recordLatency s host t v
    | none => s
  match res.2 with
  | some v => recordPacketLoss s1 host t v
  | none => s1

/-- Models `measure_latency(hosts)`: sweep over the hosts; the per-host probe
outcomes are environmental inputs, supplied alongside each host. -/
def measure_latency (s : PMState) (probes : List (String × PingOutcome)) (t : Nat) : PMState :=
  probes.foldl (fun s p => measureLatencyHost s p.1 p.2 t) s

/-- Body of the per-domain loop of `measure_dns_resolution`:
`_measure_dns_resolution_time` returns a duration or `None`. -/
def measureDnsHost (s : PMState) (domain : String) (res : Option ℚ) (t : Nat) : PMState :=
  match res with
  | some v => recordDnsResolution s domain t v
  | none => s

/-- Models `measure_dns_resolution(domains)` with per-domain outcomes supplied. -/
def measure_dns_resolution (s : PMState) (probes : List (String × Option ℚ)) (t : Nat) : PMState :=
  probes.foldl (fun s p => measureDnsHost s p.1 p.2 t) s

/-- Body of the per-host loop of `measure_jitter`. -/
def measureJitterHost (s : PMState) (host : String) (res : Option ℚ) (t : Nat) : PMState :=
  match res with
  | some v => recordJitter s host t v
  | none => s

/-- Models `_measure_connection_time`: on success returns the duration; on any
connection failure it increments the host's retry counter (defaultdict
auto-vivification) and returns `None`. -/
def measureConnectionTimeProbe (s : PMState) (host : String) (outcome : Option ℚ) :
    PMState × Option ℚ :=
  match outcome with
  | some v => (s, some v)
  | none =>
    ({ s with connection_retries :=
        alistSet s.connection_retries host (alistGetD s.connection_retries host 0 + 1) },
      none)

/-- Body of the per-host loop of `measure_connection_times`. -/
def measureConnectionTimesHost (s : PMState) (host : String) (outcome : Option ℚ) (t : Nat) :
    PMState :=
  let r := measureConnectionTimeProbe s host outcome
  match r.2 with
  | some v => recordConnectionTime r.1 host t v
  | none => r.1

/-- Models `measure_retries(host)`: `self.connection_retries.get(host, 0)`. -/
def measure_retries (s : PMState) (host : String) : Nat :=
  alistGetD s.connection_retries host 0

/-- Models `add_monitoring_target(host)`: append to `common_destinations` unless
already present. -/
def add_monitoring_target (s : PMState) (host : String) : PMState :=
  if host ∈ s.common_destinations then s
  else { s with common_destinations := s.common_destinations ++ [host] }

/-! `_is_ip_address` and its `socket.inet_aton` dependency. -/

def isDigitChar (c : Char) : Bool := decide ('0' ≤ c ∧ c ≤ '9')

/-- Split a character list on the dot separator (`host.split(".")`). -/
def splitDots : List Char → List Char → List (List Char)
  | [], acc => [acc.reverse]
  | c :: cs, acc => if c = '.' then acc.reverse :: splitDots cs [] else splitDots cs (c :: acc)

/-- Parse a non-empty all-decimal-digit component. -/
def parseDecPart (cs : List Char) : Option Nat :=
  if 0 < cs.length ∧ cs.all isDigitChar then
    some (cs.foldl (fun n c => n * 10 + (c.toNat - 48)) 0)
  else none

/-- Models `socket.inet_aton` (C library, outside this repository): accepts
the classic dotted decimal forms with 1 to 4 components, with the usual
range limits per component count.  The octal and hexadecimal component
prefixes some C libraries also accept are not modelled; every host string
appearing in the claims is either dotted decimal or contains letters. -/
def inet_aton_ok (host : String) : Bool :=
  match (splitDots host.data []).mapM parseDecPart with
  | none => false
  | some parts =>
    match parts with
    | [a] => decide (a < 2 ^ 32)
    | [a, b] => decide (a ≤ 255 ∧ b < 2 ^ 24)
    | [a, b, c] => decide (a ≤ 255 ∧ b ≤ 255 ∧ c < 2 ^ 16)
    | [a, b, c, d] => decide (a ≤ 255 ∧ b ≤ 255 ∧ c ≤ 255 ∧ d ≤ 255)
    | _ => false

/-- Models `_is_ip_address(host)`: true exactly when `socket.inet_aton` accepts it. -/
def is_ip_address (host : String) : Bool := inet_aton_ok host


/-! The metric getters.  Each returns the Python result dict, modelled as an
association list of per-host summaries.  The getters are threaded through the
state because evaluating the guard
`h in self.historical_metrics[mt]` auto-vivifies the outer defaultdict key,
and `get_connection_time_metrics` reads `self.connection_retries[h]`
unguarded, vivifying the retry counter. -/

/-- The per-host summary dict built by the getters.  `median` is present for
the latency, DNS and connection-time getters only; `retry_attempts` only for
the connection-time getter; absent keys are `none`. -/
structure MetricStats where
  current : ℚ
  min : ℚ
  max : ℚ
  avg : ℚ
  median : Option ℚ
  history : List Sample
  retry_attempts : Option Nat
deriving DecidableEq

/-- Models `get_latency_metrics(host)`. -/
def get_latency_metrics (s : PMState) (host : Option String) :
    PMState × AList MetricStats :=
  let hosts := match host with
    | some h => [h]
    | none => s.latency.map Prod.fst
  hosts.foldl
    (fun acc h =>
      let s := acc.1
      match alistLookup s.latency h with
      | some values =>
        if 0 < values.length then
          let inner := alistGetD s.historical_metrics "latency" []
          let s' := { s with historical_metrics := alistSet s.historical_metrics "latency" inner }
          let history := match alistLookup inner h with
            | some samples => lastN 10 samples
            | none => []
          (s', acc.2 ++ [(h,
            { current := values.getLastD 0
              min := listMin values
              max := listMax values
              avg := mean values
              median := some (median values)
              history := history
              retry_attempts := none })])
        else acc
      | none => acc)
    (s, [])

/-- Models `get_packet_loss_metrics(host)` (no median key in the source). -/
def get_packet_loss_metrics (s : PMState) (host : Option String) :
    PMState × AList MetricStats :=
  let hosts := match host with
    | some h => [h]
    | none => s.packet_loss.map Prod.fst
  hosts.foldl
    (fun acc h =>
      let s := acc.1
      match alistLookup s.packet_loss h with
      | some values =>
        if 0 < values.length then
          let inner := alistGetD s.historical_metrics "packet_loss" []
          let s' := { s with historical_metrics := alistSet s.historical_metrics "packet_loss" inner }
          let history := match alistLookup inner h with
            | some samples => lastN 10 samples
            | none => []
          (s', acc.2 ++ [(h,
            { current := values.getLastD 0
              min := listMin values
              max := listMax values
              avg := mean values
              median := none
              history := history
              retry_attempts := none })])
        else acc
      | none => acc)
    (s, [])

/-- Models `get_jitter_metrics(host)` (no median key in the source). -/
def get_jitter_metrics (s : PMState) (host : Option String) :
    PMState × AList MetricStats :=
  let hosts := match host with
    | some h => [h]
    | none => s.jitter.map Prod.fst
  hosts.foldl
    (fun acc h =>
      let s := acc.1
      match alistLookup s.jitter h with
      | some values =>
        if 0 < values.length then
          let inner := alistGetD s.historical_metrics "jitter" []
          let s' := { s with historical_metrics := alistSet s.historical_metrics "jitter" inner }
          let history := match alistLookup inner h with
            | some samples => lastN 10 samples
            | none => []
          (s', acc.2 ++ [(h,
            { current := values.getLastD 0
              min := listMin values
              max := listMax values
              avg := mean values
              median := none
              history := history
              retry_attempts := none })])
        else acc
      | none => acc)
    (s, [])

/-- Models `get_dns_resolution_metrics(domain)`. -/
def get_dns_resolution_metrics (s : PMState) (domain : Option String) :
    PMState × AList MetricStats :=
  let domains := match domain with
    | some d => [d]
    | none => s.dns_resolution.map Prod.fst
  domains.foldl
    (fun acc d =>
      let s := acc.1
      match alistLookup s.dns_resolution d with
      | some values =>
        if 0 < values.length then
          let inner := alistGetD s.historical_metrics "dns_resolution" []
          let s' := { s with historical_metrics := alistSet s.historical_metrics "dns_resolution" inner }
          let history := match alistLookup inner d with
            | some samples => lastN 10 samples
            | none => []
          (s', acc.2 ++ [(d,
            { current := values.getLastD 0
              min := listMin values
              max := listMax values
              avg := mean values
              median := some (median values)
              history := history
              retry_attempts := none })])
        else acc
      | none => acc)
    (s, [])

/-- Models `get_connection_time_metrics(host)`: also reads
`self.connection_retries[h]`, an unguarded defaultdict access that
vivifies the counter at 0. -/
def get_connection_time_metrics (s : PMState) (host : Option String) :
    PMState × AList MetricStats :=
  let hosts := match host with
    | some h => [h]
    | none => s.connection_times.map Prod.fst
  hosts.foldl
    (fun acc h =>
      let s := acc.1
      match alistLookup s.connection_times h with
      | some values =>
        if 0 < values.length then
          let inner := alistGetD s.historical_metrics "connection_time" []
          let s1 := { s with historical_metrics := alistSet s.historical_metrics "connection_time" inner }
          let history := match alistLookup inner h with
            | some samples => lastN 10 samples
            | none => []
          let r := alistGetD s1.connection_retries h 0
          let s2 := { s1 with connection_retries := alistSet s1.connection_retries h r }
          (s2, acc.2 ++ [(h,
            { current := values.getLastD 0
              min := listMin values
              max := listMax values
              avg := mean values
              median := some (median values)
              history := history
              retry_attempts := some r })])
        else acc
      | none => acc)
    (s, [])

/-- First-occurrence deduplication, used to model the `set()` union of the
per-metric host key sets in `get_comprehensive_metrics`.  Python set
iteration order is unspecified; the claims settled here only use cases in
which the set is empty, so fixing first-occurrence order loses nothing. -/
def dedupAux (seen : List String) : List String → List String
  | [] => []
  | x :: xs => if x ∈ seen then dedupAux seen xs else x :: dedupAux (x :: seen) xs

def dedupFirst (l : List String) : List String := dedupAux [] l

/-- The per-host bundle built by `get_comprehensive_metrics`.  The four
fixed keys take the getter entry for the host or the empty dict
(modelled as `none`); `dns_resolution` is only added for non-literal
hosts with a non-empty DNS getter result (outer `none` = key absent,
`some none` = key present holding the empty dict). -/
structure ComprehensiveStats where
  latency : Option MetricStats
  packet_loss : Option MetricStats
  jitter : Option MetricStats
  connection_time : Option MetricStats
  retry_attempts : Nat
  dns_resolution : Option (Option MetricStats)
deriving DecidableEq

/-- Models `get_comprehensive_metrics(host)`: calls the four getters, unions their
host key sets, and builds one bundle per host in that union. -/
def get_comprehensive_metrics (s : PMState) (host : Option String) :
    PMState × AList ComprehensiveStats :=
  let r1 := get_latency_metrics s host
  let r2 := get_packet_loss_metrics r1.1 host
  let r3 := get_jitter_metrics r2.1 host
  let r4 := get_connection_time_metrics r3.1 host
  let lat := r1.2
  let pl := r2.2
  let jit := r3.2
  let ct := r4.2
  let hosts := dedupFirst (lat.map Prod.fst ++ pl.map Prod.fst ++
    jit.map Prod.fst ++ ct.map Prod.fst)
  hosts.foldl
    (fun acc h =>
      let s := acc.1
      let base : ComprehensiveStats :=
        { latency := alistLookup lat h
          packet_loss := alistLookup pl h
          jitter := alistLookup jit h
          connection_time := alistLookup ct h
          retry_attempts := alistGetD s.connection_retries h 0
          dns_resolution := none }
      if is_ip_address h then (s, acc.2 ++ [(h, base)])
      else
        let rd := get_dns_resolution_metrics s (some h)
        if 0 < rd.2.length then
          (rd.1, acc.2 ++ [(h, { base with dns_resolution := some (alistLookup rd.2 h) })])
        else (rd.1, acc.2 ++ [(h, base)]))
    (r4.1, [])

/-! `NetworkMetricsManager.add_performance_target` (forwarded onto the
monitor): add the target, then force one latency measurement and, for
non-literal addresses only, one DNS-resolution measurement.  The wrapper
catches everything, so the function is total: failed probes simply record
nothing. -/

def add_performance_target (s : PMState) (target : String) (ping : PingOutcome)
    (dnsRes : Option ℚ) (t : Nat) : PMState :=
  let s1 := add_monitoring_target s target
  let s2 := measure_latency s1 [(target, ping)] t
  if is_ip_address target then s2
  else measure_dns_resolution s2 [(target, dnsRes)] t

/-- The kinds of forced measurements `add_performance_target` can issue. -/
inductive ProbeKind where
  | latency
  | dns
deriving DecidableEq

/-- The sequence of forced measurements issued by `add_performance_target`,
following the branch structure of the code: always one latency measurement,
then a DNS-resolution measurement exactly when the target is not a literal
address. -/
def add_performance_target_probes (target : String) : List ProbeKind :=
  [ProbeKind.latency] ++ (if is_ip_address target then [] else [ProbeKind.dns])

/-! `NetworkMetricsManager` object-graph model, used for the read API.
Python returns dict objects by reference, so the snapshot dict lives on an
explicit heap of addressed objects and `get_metrics` returns an address;
whether that address aliases the internal `aggregated_metrics` dict is then
observable.  Snapshot category values are opaque tokens. -/

def heapLookup (h : List (Nat × AList Nat)) (a : Nat) : Option (AList Nat) :=
  match h with
  | [] => none
  | (a', d) :: rest => if a' = a then some d else heapLookup rest a

def heapSet (h : List (Nat × AList Nat)) (a : Nat) (d : AList Nat) :
    List (Nat × AList Nat) :=
  match h with
  | [] => [(a, d)]
  | (a', d') :: rest => if a' = a then (a', d) :: rest else (a', d') :: heapSet rest a d

/-- Manager state: heap of dict objects, the address of
`self.aggregated_metrics`, and the next fresh address. -/
structure NMState where
  heap : List (Nat × AList Nat)
  aggregated_metrics : Nat
  next : Nat
deriving DecidableEq

/-- Contents of the dict object at an address (the source never reads a
dangling address; the default is unreachable). -/
def heapGetD (s : NMState) (a : Nat) : AList Nat :=
  (heapLookup s.heap a).getD []

/-- Allocate a fresh dict object. -/
def heapAlloc (s : NMState) (d : AList Nat) : NMState × Nat :=
  ({ s with heap := s.heap ++ [(s.next, d)], next := s.next + 1 }, s.next)

/-- Models `NetworkMetricsManager.__init__`: `self.aggregated_metrics` is a fresh
empty dict. -/
def nmInit : NMState :=
  { heap := [(0, [])], aggregated_metrics := 0, next := 1 }

/-- Models `get_metrics(metric_type)`.  With no category the code returns
`self.aggregated_metrics` itself — the internal dict object, not a copy.
With a category it returns `self.aggregated_metrics.get(metric_type, d)`
where `d` is a freshly allocated empty dict (the default literal). -/
def get_metrics (s : NMState) (metric_type : Option String) : NMState × Nat :=
  match metric_type with
  | none => (s, s.aggregated_metrics)
  | some mt =>
    let r := heapAlloc s []
    (r.1, (alistLookup (heapGetD r.1 r.1.aggregated_metrics) mt).getD r.2)

/-- A caller performing `returned[k] = v` on the dict object `get_metrics`
handed back: a plain item assignment through the reference. -/
def dictSetItem (s : NMState) (a : Nat) (k : String) (v : Nat) : NMState :=
  { s with heap := heapSet s.heap a (alistSet (heapGetD s a) k v) }

/-- The store-internal aggregated snapshot contents. -/
def aggContents (s : NMState) : AList Nat :=
  heapGetD s s.aggregated_metrics

/-! The `_aggregation_loop` dynamics (`network_metrics_manager.py`).
Modelled at snapshot-contents level (aliasing is not at issue here):
collaborator snapshot calls are environmental inputs of type
`Except Unit _`, where `.error` models the call raising.  All three
collaborators are assumed wired in (the `if not self.x: return` guards do
not fire), and `TrafficAnalyzer` has `get_connection_stats` and
`connection_history`, so the `hasattr` branches take the true path.
`cleanup_stale_connections` mutates only the collaborator and is omitted. -/

/-- One record of `recent_connections` (only the keys the manager reads). -/
structure Conn where
  src_ip : Option String
  dst_ip : Option String
deriving DecidableEq

/-- A value published into one snapshot category: an opaque token for the
dict-shaped categories, or the concrete connection list. -/
inductive SnapVal where
  | val (token : Nat)
  | conns (cs : List Conn)
deriving DecidableEq

/-- Models the truthiness test on the src_ip and dst_ip entries: both keys
present with non-empty values. -/
def connTruthy (c : Conn) : Bool :=
  decide (c.src_ip.getD "" ≠ "") && decide (c.dst_ip.getD "" ≠ "")

/-- Aggregator state: the published snapshot and the per-category
`last_update` clock (`defaultdict(lambda: datetime.min)`). -/
structure AggState where
  aggregated_metrics : AList SnapVal
  last_update : AList Int
deriving DecidableEq

/-- Models `datetime.min`, far in the past: every realistic clock reading is due
against it. -/
def datetimeMin : Int := -(2 ^ 62)

def lastUpd (s : AggState) (k : String) : Int :=
  (alistLookup s.last_update k).getD datetimeMin

/-- Models `(current_time - self.last_update[k]).total_seconds() >= interval`. -/
def updDue (s : AggState) (k : String) (interval : Int) (now : Int) : Bool :=
  decide (interval ≤ now - lastUpd s k)

def aggPublish (s : AggState) (k : String) (v : SnapVal) : AggState :=
  { s with aggregated_metrics := alistSet s.aggregated_metrics k v }

def aggStamp (s : AggState) (k : String) (now : Int) : AggState :=
  { s with last_update := alistSet s.last_update k now }

/-- Models `_update_device_metrics`: publishes the scanner snapshot; an exception
from the collaborator propagates (no local handler). -/
def update_device_metrics (s : AggState) (dev : Except Unit Nat) : Except Unit AggState :=
  dev.map (fun d => aggPublish s "devices" (.val d))

/-- Models `_update_traffic_metrics`: its body is wrapped in its own
`try/except`, so a collaborator exception leaves whatever was already
published in this call and never propagates. -/
def update_traffic_metrics (s : AggState) (proto : Except Unit Nat)
    (connStats : Except Unit (List Conn)) : AggState :=
  match proto with
  | .error _ => s
  | .ok p =>
    let s1 := aggPublish s "protocol_distribution" (.val p)
    match connStats with
    | .error _ => s1
    | .ok cs =>
      let s2 := aggPublish s1 "recent_connections" (.conns cs)
      let real := cs.filter connTruthy
      aggPublish s2 "recent_connections" (.conns real)

/-- Models `_update_performance_metrics` (no local handler). -/
def update_performance_metrics (s : AggState) (perf : Except Unit Nat) :
    Except Unit AggState :=
  perf.map (fun v => aggPublish s "performance" (.val v))

/-- Models `_update_bandwidth_metrics` (no local handler). -/
def update_bandwidth_metrics (s : AggState) (bw : Except Unit Nat) :
    Except Unit AggState :=
  bw.map (fun v => aggPublish s "bandwidth" (.val v))

/-- Tail of one loop iteration from the bandwidth check on.  An uncaught
exception jumps to the loop-level handler, abandoning the iteration. -/
def bandwidthStage (s : AggState) (now : Int) (bw : Except Unit Nat) : AggState :=
  if updDue s "bandwidth_metrics" 5 now then
    match update_bandwidth_metrics s bw with
    | .error _ => s
    | .ok s' => aggStamp s' "bandwidth_metrics" now
  else s

/-- Tail of one loop iteration from the performance check on: a raising
performance update skips the bandwidth update of this iteration. -/
def performanceStage (s : AggState) (now : Int) (perf bw : Except Unit Nat) : AggState :=
  if updDue s "performance_metrics" 60 now then
    match update_performance_metrics s perf with
    | .error _ => s
    | .ok s' => bandwidthStage (aggStamp s' "performance_metrics" now) now bw
  else bandwidthStage s now bw

/-- Tail of one loop iteration from the traffic check on: the traffic
update never raises (internal handler), so the iteration always continues. -/
def trafficStage (s : AggState) (now : Int) (proto : Except Unit Nat)
    (connStats : Except Unit (List Conn)) (perf bw : Except Unit Nat) : AggState :=
  if updDue s "traffic_metrics" 30 now then
    performanceStage (aggStamp (update_traffic_metrics s proto connStats) "traffic_metrics" now)
      now perf bw
  else performanceStage s now perf bw

/-- One full iteration of the `while True` body of `_aggregation_loop`: a
raising device update skips everything after it in this iteration (caught
only by the loop-level handler). -/
def aggregation_iteration (s : AggState) (now : Int) (dev : Except Unit Nat)
    (proto : Except Unit Nat) (connStats : Except Unit (List Conn))
    (perf bw : Except Unit Nat) : AggState :=
  if updDue s "device_metrics" 60 now then
    match update_device_metrics s dev with
    | .error _ => s
    | .ok s' => trafficStage (aggStamp s' "device_metrics" now) now proto connStats perf bw
  else trafficStage s now proto connStats perf bw

/-- The monitor state after three failed connection-establishment probes to
the target 10.0.0.5 (each failure increments the retry counter and records
no sample). -/
def c4state : PMState :=
  measureConnectionTimesHost
    (measureConnectionTimesHost
      (measureConnectionTimesHost pmInit "10.0.0.5" none 0) "10.0.0.5" none 1)
    "10.0.0.5" none 2

/-- An aggregator state holding one previously published value per
category, with a fresh clock (so every category is due). -/
def c5s0 : AggState :=
  { aggregated_metrics := [("devices", .val 1), ("protocol_distribution", .val 2),
      ("recent_connections", .conns []), ("performance", .val 3), ("bandwidth", .val 4)]
    last_update := [] }

/-- The monitor state after recording the latency samples 10, 20, 30 for
target 1.1.1.1 into a fresh store. -/
def c9state : PMState :=
  measureLatencyHost
    (measureLatencyHost
      (measureLatencyHost pmInit "1.1.1.1" (.parsed (some 10) none) 0)
      "1.1.1.1" (.parsed (some 20) none) 1)
    "1.1.1.1" (.parsed (some 30) none) 2

/-! Shared helper lemmas. -/

theorem alistLookup_set_same {β : Type} (d : AList β) (k : String) (v : β) :
    alistLookup (alistSet d k v) k = some v := by
  induction d with
  | nil => simp [alistSet, alistLookup]
  | cons hd tl ih =>
    by_cases h : hd.1 = k
    · simp [alistSet, alistLookup, h]
    · simp [alistSet, alistLookup, h, ih]

theorem alistLookup_set_other {β : Type} (d : AList β) (k k' : String) (v : β)
    (h : k ≠ k') : alistLookup (alistSet d k v) k' = alistLookup d k' := by
  induction d with
  | nil => simp [alistSet, alistLookup, h]
  | cons hd tl ih =>
    by_cases hk : hd.1 = k
    · simp [alistSet, alistLookup, hk, h]
    · by_cases hk' : hd.1 = k'
      · simp [alistSet, alistLookup, hk, hk', Ne.symm h]
      · simp [alistSet, alistLookup, hk, hk', ih]

theorem dequeAppend_length {α : Type} (cap : Nat) (hcap : 1 ≤ cap) (q : List α)
    (v : α) (hq : q.length ≤ cap) :
    (dequeAppend cap q v).length = min cap (q.length + 1) := by
  unfold dequeAppend
  by_cases h : q.length < cap
  · simp [h]
    omega
  · have hlen : q.length = cap := by omega
    simp [h]
    omega

/-- Core FIFO lemma: folding deque appends over a value stream keeps exactly
the suffix that fits in the capacity. -/
theorem dequeAppend_foldl {α : Type} (cap : Nat) (hcap : 1 ≤ cap) :
    ∀ (vs : List α) (q : List α), q.length ≤ cap →
      vs.foldl (dequeAppend cap) q = (q ++ vs).drop (q.length + vs.length - cap) := by
  intro vs
  induction vs with
  | nil =>
    intro q hq
    simp [Nat.sub_eq_zero_of_le hq]
  | cons v vs ih =>
    intro q hq
    by_cases h : q.length < cap
    · have step : dequeAppend cap q v = q ++ [v] := by simp [dequeAppend, h]
      have hlen : (q ++ [v]).length ≤ cap := by simp; omega
      have := ih (q ++ [v]) hlen
      simp only [List.foldl_cons, step, this]
      have harr : (q ++ [v]) ++ vs = q ++ (v :: vs) := by simp
      rw [harr]
      congr 1
      simp
      omega
    · have hlen : q.length = cap := by omega
      cases q with
      | nil =>
        simp at hlen
        omega
      | cons a q' =>
        have hq' : q'.length + 1 = cap := by simpa using hlen
        have step : dequeAppend cap (a :: q') v = q' ++ [v] := by
          unfold dequeAppend
          rw [if_neg h]
          simp
        have hlen' : (q' ++ [v]).length ≤ cap := by
          simp
          omega
        have hmain := ih (q' ++ [v]) hlen'
        simp only [List.foldl_cons, step, hmain]
        have harr : (q' ++ [v]) ++ vs = q' ++ (v :: vs) := by simp
        rw [harr]
        have hidx : (q' ++ [v]).length + vs.length - cap = vs.length := by
          simp
          omega
        have hidx2 : (a :: q').length + (v :: vs).length - cap = vs.length + 1 := by
          simp
          omega
        rw [hidx, hidx2]
        have hcons : (a :: q') ++ v :: vs = a :: (q' ++ v :: vs) := by simp
        rw [hcons, List.drop_succ_cons]

/-- Specialisation: after at least `cap` appends the ring holds exactly the
last `cap` values, in insertion order. -/
theorem dequeAppend_foldl_of_ge {α : Type} (cap : Nat) (hcap : 1 ≤ cap)
    (vs : List α) (q : List α) (hq : q.length ≤ cap) (hvs : cap ≤ vs.length) :
    vs.foldl (dequeAppend cap) q = vs.drop (vs.length - cap) ∧
      (vs.foldl (dequeAppend cap) q).length = cap := by
  have hmain := dequeAppend_foldl cap hcap vs q hq
  have hidx : q.length + vs.length - cap = q.length + (vs.length - cap) := by omega
  have hdrop : (q ++ vs).drop (q.length + (vs.length - cap)) = vs.drop (vs.length - cap) := by
    rw [List.drop_append]
  constructor
  · rw [hmain, hidx, hdrop]
  · rw [hmain, hidx, hdrop]
    simp
    omega

example : is_ip_address "8.8.8.8" = true := by decide
example : is_ip_address "example.com" = false := by decide
example : is_ip_address "10.0.0.5" = true := by decide

theorem alistGetD_ringAppend_same (cap : Nat) (d : AList (List ℚ)) (h : String) (v : ℚ) :
    alistGetD (ringAppend cap d h v) h [] = dequeAppend cap (alistGetD d h []) v := by
  simp [ringAppend, alistGetD, alistLookup_set_same]

theorem recordLatency_fold_ring (host : String) (t : Nat) (vs : List ℚ) :
    ∀ s : PMState,
      alistGetD ((vs.foldl (fun s v => recordLatency s host t v) s).latency) host []
        = vs.foldl (dequeAppend 100) (alistGetD s.latency host []) := by
  induction vs with
  | nil => intro s; rfl
  | cons v vs ih =>
    intro s
    simp only [List.foldl_cons]
    rw [ih]
    simp [recordLatency, alistGetD_ringAppend_same]

theorem recordPacketLoss_fold_ring (host : String) (t : Nat) (vs : List ℚ) :
    ∀ s : PMState,
      alistGetD ((vs.foldl (fun s v => recordPacketLoss s host t v) s).packet_loss) host []
        = vs.foldl (dequeAppend 50) (alistGetD s.packet_loss host []) := by
  induction vs with
  | nil => intro s; rfl
  | cons v vs ih =>
    intro s
    simp only [List.foldl_cons]
    rw [ih]
    simp [recordPacketLoss, alistGetD_ringAppend_same]

theorem recordDnsResolution_fold_ring (host : String) (t : Nat) (vs : List ℚ) :
    ∀ s : PMState,
      alistGetD ((vs.foldl (fun s v => recordDnsResolution s host t v) s).dns_resolution) host []
        = vs.foldl (dequeAppend 50) (alistGetD s.dns_resolution host []) := by
  induction vs with
  | nil => intro s; rfl
  | cons v vs ih =>
    intro s
    simp only [List.foldl_cons]
    rw [ih]
    simp [recordDnsResolution, alistGetD_ringAppend_same]

theorem recordJitter_fold_ring (host : String) (t : Nat) (vs : List ℚ) :
    ∀ s : PMState,
      alistGetD ((vs.foldl (fun s v => recordJitter s host t v) s).jitter) host []
        = vs.foldl (dequeAppend 50) (alistGetD s.jitter host []) := by
  induction vs with
  | nil => intro s; rfl
  | cons v vs ih =>
    intro s
    simp only [List.foldl_cons]
    rw [ih]
    simp [recordJitter, alistGetD_ringAppend_same]

theorem recordConnectionTime_fold_ring (host : String) (t : Nat) (vs : List ℚ) :
    ∀ s : PMState,
      alistGetD ((vs.foldl (fun s v => recordConnectionTime s host t v) s).connection_times) host []
        = vs.foldl (dequeAppend 50) (alistGetD s.connection_times host []) := by
  induction vs with
  | nil => intro s; rfl
  | cons v vs ih =>
    intro s
    simp only [List.foldl_cons]
    rw [ih]
    simp [recordConnectionTime, alistGetD_ringAppend_same]

theorem histAppend_lookup_same (hm : AList (AList (List Sample))) (mt h : String)
    (t : Nat) (v : ℚ) :
    alistGetD (alistGetD (histAppend hm mt h t v) mt []) h []
      = alistGetD (alistGetD hm mt []) h [] ++ [⟨t, v⟩] := by
  simp [histAppend, alistGetD, alistLookup_set_same]

theorem recordLatency_fold_hist (host : String) (t : Nat) (vs : List ℚ) :
    ∀ s : PMState,
      (alistGetD (alistGetD
          ((vs.foldl (fun s v => recordLatency s host t v) s).historical_metrics) "latency" [])
        host []).length
      = (alistGetD (alistGetD s.historical_metrics "latency" []) host []).length + vs.length := by
  induction vs with
  | nil => intro s; rfl
  | cons v vs ih =>
    intro s
    simp only [List.foldl_cons]
    rw [ih]
    simp [recordLatency, histAppend_lookup_same]
    omega

theorem recordPacketLoss_fold_hist (host : String) (t : Nat) (vs : List ℚ) :
    ∀ s : PMState,
      (alistGetD (alistGetD
          ((vs.foldl (fun s v => recordPacketLoss s host t v) s).historical_metrics) "packet_loss" [])
        host []).length
      = (alistGetD (alistGetD s.historical_metrics "packet_loss" []) host []).length + vs.length := by
  induction vs with
  | nil => intro s; rfl
  | cons v vs ih =>
    intro s
    simp only [List.foldl_cons]
    rw [ih]
    simp [recordPacketLoss, histAppend_lookup_same]
    omega

theorem recordDnsResolution_fold_hist (host : String) (t : Nat) (vs : List ℚ) :
    ∀ s : PMState,
      (alistGetD (alistGetD
          ((vs.foldl (fun s v => recordDnsResolution s host t v) s).historical_metrics) "dns_resolution" [])
        host []).length
      = (alistGetD (alistGetD s.historical_metrics "dns_resolution" []) host []).length + vs.length := by
  induction vs with
  | nil => intro s; rfl
  | cons v vs ih =>
    intro s
    simp only [List.foldl_cons]
    rw [ih]
    simp [recordDnsResolution, histAppend_lookup_same]
    omega

theorem recordJitter_fold_hist (host : String) (t : Nat) (vs : List ℚ) :
    ∀ s : PMState,
      (alistGetD (alistGetD
          ((vs.foldl (fun s v => recordJitter s host t v) s).historical_metrics) "jitter" [])
        host []).length
      = (alistGetD (alistGetD s.historical_metrics "jitter" []) host []).length + vs.length := by
  induction vs with
  | nil => intro s; rfl
  | cons v vs ih =>
    intro s
    simp only [List.foldl_cons]
    rw [ih]
    simp [recordJitter, histAppend_lookup_same]
    omega

theorem recordConnectionTime_fold_hist (host : String) (t : Nat) (vs : List ℚ) :
    ∀ s : PMState,
      (alistGetD (alistGetD
          ((vs.foldl (fun s v => recordConnectionTime s host t v) s).historical_metrics) "connection_time" [])
        host []).length
      = (alistGetD (alistGetD s.historical_metrics "connection_time" []) host []).length + vs.length := by
  induction vs with
  | nil => intro s; rfl
  | cons v vs ih =>
    intro s
    simp only [List.foldl_cons]
    rw [ih]
    simp [recordConnectionTime, histAppend_lookup_same]
    omega

/-! Per-claim results. -/

/-- C1 (amended): for every metric kind and target the raw-value ring is a
bounded FIFO buffer — after N > capacity record calls the series holds
exactly the last `capacity` values in insertion order — but the capacities
are 100 for the latency series and 50 for the DNS-resolution,
connection-time, packet-loss and jitter series (the source gives
`deque(maxlen=50)` to DNS resolution and connection times, not 100). -/
theorem c1_ring_bounded_fifo (s : PMState) (h : String) (t : Nat) (vs : List ℚ)
    (hlat : (alistGetD s.latency h []).length ≤ 100)
    (hpl : (alistGetD s.packet_loss h []).length ≤ 50)
    (hdns : (alistGetD s.dns_resolution h []).length ≤ 50)
    (hjit : (alistGetD s.jitter h []).length ≤ 50)
    (hct : (alistGetD s.connection_times h []).length ≤ 50)
    (hn : 100 < vs.length) :
    (alistGetD ((vs.foldl (fun s v => recordLatency s h t v) s).latency) h []
        = vs.drop (vs.length - 100) ∧
      (alistGetD ((vs.foldl (fun s v => recordLatency s h t v) s).latency) h []).length = 100) ∧
    (alistGetD ((vs.foldl (fun s v => recordPacketLoss s h t v) s).packet_loss) h []
        = vs.drop (vs.length - 50) ∧
      (alistGetD ((vs.foldl (fun s v => recordPacketLoss s h t v) s).packet_loss) h []).length = 50) ∧
    (alistGetD ((vs.foldl (fun s v => recordDnsResolution s h t v) s).dns_resolution) h []
        = vs.drop (vs.length - 50) ∧
      (alistGetD ((vs.foldl (fun s v => recordDnsResolution s h t v) s).dns_resolution) h []).length = 50) ∧
    (alistGetD ((vs.foldl (fun s v => recordJitter s h t v) s).jitter) h []
        = vs.drop (vs.length - 50) ∧
      (alistGetD ((vs.foldl (fun s v => recordJitter s h t v) s).jitter) h []).length = 50) ∧
    (alistGetD ((vs.foldl (fun s v => recordConnectionTime s h t v) s).connection_times) h []
        = vs.drop (vs.length - 50) ∧
      (alistGetD ((vs.foldl (fun s v => recordConnectionTime s h t v) s).connection_times) h []).length = 50) := by
  have h100 : (100 : Nat) ≤ vs.length := by omega
  have h50 : (50 : Nat) ≤ vs.length := by omega
  refine ⟨?_, ?_, ?_, ?_, ?_⟩
  · rw [recordLatency_fold_ring]
    exact dequeAppend_foldl_of_ge 100 (by omega) vs _ hlat h100
  · rw [recordPacketLoss_fold_ring]
    exact dequeAppend_foldl_of_ge 50 (by omega) vs _ hpl h50
  · rw [recordDnsResolution_fold_ring]
    exact dequeAppend_foldl_of_ge 50 (by omega) vs _ hdns h50
  · rw [recordJitter_fold_ring]
    exact dequeAppend_foldl_of_ge 50 (by omega) vs _ hjit h50
  · rw [recordConnectionTime_fold_ring]
    exact dequeAppend_foldl_of_ge 50 (by omega) vs _ hct h50

/-- C1 witness: 101 latency records into a fresh store leave a ring of
length exactly 100. -/
theorem c1_ring_bounded_fifo_witness :
    (alistGetD (((rangeQ 101).foldl
        (fun s v => recordLatency s "t" 0 v) pmInit).latency) "t" []).length = 100 :=
  (c1_ring_bounded_fifo pmInit "t" 0 (rangeQ 101)
    (by decide) (by decide) (by decide) (by decide) (by decide)
    (by rw [rangeQ, List.length_map, List.length_range]; omega)).1.2

/-- C1 counterexample: the claim gives the DNS-resolution ring capacity 100,
but after 101 DNS record calls the series length is 50, not 100. -/
theorem c1_counterexample :
    (alistGetD (((rangeQ 101).foldl
        (fun s v => recordDnsResolution s "example.com" 0 v) pmInit).dns_resolution)
      "example.com" []).length ≠ 100 := by
  rw [recordDnsResolution_fold_ring]
  have hlen : (rangeQ 101).length = 101 := by
    rw [rangeQ, List.length_map, List.length_range]
  have := dequeAppend_foldl_of_ge 50 (by omega)
    (rangeQ 101)
    (alistGetD pmInit.dns_resolution "example.com" []) (by decide) (by omega)
  rw [this.2]
  omega

/-- C2 counterexample: the timestamped per-target list in
`historical_metrics` is a plain Python list that is appended to on every
record call and never truncated, so no fixed retention bound exists. -/
theorem c2_counterexample :
    ¬ ∃ B : Nat, ∀ vs : List ℚ,
      (alistGetD (alistGetD
          ((vs.foldl (fun s v => recordLatency s "h" 0 v) pmInit).historical_metrics)
          "latency" []) "h" []).length ≤ B := by
  rintro ⟨B, hB⟩
  have hb := hB (rangeQ (B + 1))
  rw [recordLatency_fold_hist, rangeQ, List.length_map, List.length_range] at hb
  have hbase : (alistGetD (alistGetD pmInit.historical_metrics "latency" []) "h" []).length = 0 := rfl
  rw [hbase] at hb
  omega

/-- C2 (amended): for every metric kind and target, the ordered list of
timestamped samples kept alongside the ring is unbounded — its length
grows by exactly one per record call for each of the latency, packet-loss,
DNS-resolution, jitter and connection-time kinds, so after N record calls
on a fresh store it equals N (only the displayed history is truncated, to
the last 10 entries, at read time). -/
theorem c2_history_unbounded (s : PMState) (h : String) (t : Nat) (vs : List ℚ) :
    ((alistGetD (alistGetD
        ((vs.foldl (fun s v => recordLatency s h t v) s).historical_metrics) "latency" [])
      h []).length
      = (alistGetD (alistGetD s.historical_metrics "latency" []) h []).length + vs.length) ∧
    ((alistGetD (alistGetD
        ((vs.foldl (fun s v => recordPacketLoss s h t v) s).historical_metrics) "packet_loss" [])
      h []).length
      = (alistGetD (alistGetD s.historical_metrics "packet_loss" []) h []).length + vs.length) ∧
    ((alistGetD (alistGetD
        ((vs.foldl (fun s v => recordDnsResolution s h t v) s).historical_metrics) "dns_resolution" [])
      h []).length
      = (alistGetD (alistGetD s.historical_metrics "dns_resolution" []) h []).length + vs.length) ∧
    ((alistGetD (alistGetD
        ((vs.foldl (fun s v => recordJitter s h t v) s).historical_metrics) "jitter" [])
      h []).length
      = (alistGetD (alistGetD s.historical_metrics "jitter" []) h []).length + vs.length) ∧
    ((alistGetD (alistGetD
        ((vs.foldl (fun s v => recordConnectionTime s h t v) s).historical_metrics) "connection_time" [])
      h []).length
      = (alistGetD (alistGetD s.historical_metrics "connection_time" []) h []).length + vs.length) :=
  ⟨recordLatency_fold_hist h t vs s, recordPacketLoss_fold_hist h t vs s,
    recordDnsResolution_fold_hist h t vs s, recordJitter_fold_hist h t vs s,
    recordConnectionTime_fold_hist h t vs s⟩

theorem heapLookup_set_same (h : List (Nat × AList Nat)) (a : Nat) (d : AList Nat) :
    heapLookup (heapSet h a d) a = some d := by
  induction h with
  | nil => simp [heapSet, heapLookup]
  | cons hd tl ih =>
    by_cases hk : hd.1 = a
    · simp [heapSet, heapLookup, hk]
    · simp [heapSet, heapLookup, hk, ih]

theorem heapLookup_append_of_some (h e : List (Nat × AList Nat)) (a : Nat)
    (d : AList Nat) (hd : heapLookup h a = some d) : heapLookup (h ++ e) a = some d := by
  induction h with
  | nil => simp [heapLookup] at hd
  | cons hd' tl ih =>
    by_cases hk : hd'.1 = a
    · simp [heapLookup, hk] at hd ⊢
      exact hd
    · simp [heapLookup, hk] at hd ⊢
      exact ih hd

theorem heapLookup_append_fresh (h : List (Nat × AList Nat)) (a : Nat)
    (d : AList Nat) (hn : heapLookup h a = none) :
    heapLookup (h ++ [(a, d)]) a = some d := by
  induction h with
  | nil => simp [heapLookup]
  | cons hd' tl ih =>
    by_cases hk : hd'.1 = a
    · simp [heapLookup, hk] at hn
    · simp [heapLookup, hk] at hn ⊢
      exact ih hn

/-- C3 counterexample: on a manager whose snapshot holds one category,
calling `get_metrics()` with no category and assigning a new key through
the returned value changes the store-internal aggregated state — the
returned value is not a copy. -/
theorem c3_counterexample :
    aggContents (dictSetItem
        { heap := [(0, [("devices", 7)])], aggregated_metrics := 0, next := 1 }
        (get_metrics { heap := [(0, [("devices", 7)])], aggregated_metrics := 0, next := 1 } none).2
        "x" 5)
      ≠ aggContents { heap := [(0, [("devices", 7)])], aggregated_metrics := 0, next := 1 } := by
  decide

/-- C3 (amended): `get_metrics()` with no category returns the internal
aggregated dict object itself — an alias, not a copy — so an item
assignment through the returned reference is exactly an assignment on the
store-internal aggregated state. -/
theorem c3_get_metrics_alias (s : NMState) (k : String) (v : Nat) :
    (get_metrics s none).2 = s.aggregated_metrics ∧
    aggContents (dictSetItem s (get_metrics s none).2 k v) = alistSet (aggContents s) k v := by
  constructor
  · rfl
  · simp [get_metrics, dictSetItem, aggContents, heapGetD, heapLookup_set_same]


/-- C4 counterexample: after the three failed probes the comprehensive
metrics contain no entry at all for 10.0.0.5 — in particular no
connection-time entry reporting the retries — because the host appears in
none of the per-metric result sets (all its rings are empty). -/
theorem c4_counterexample :
    alistLookup (get_comprehensive_metrics c4state (some "10.0.0.5")).2 "10.0.0.5" = none := by
  decide

/-- C4 (amended): after exactly three failed connection-establishment
probes to 10.0.0.5 (and no successful samples of any kind), the retry-count
query returns 3, but `get_comprehensive_metrics("10.0.0.5")` returns an
empty mapping: since every ring for the host is empty, the host is in no
per-metric result set and no connection-time entry is reported. -/
theorem c4_failed_connections :
    measure_retries c4state "10.0.0.5" = 3 ∧
    (get_comprehensive_metrics c4state (some "10.0.0.5")).2 = [] := by
  decide

/-- C5 counterexample: with every category due, a previously published
value in each, and only the device collaborator raising, the whole
iteration is abandoned: the bandwidth category keeps its stale value
instead of the fresh one its own (successful) collaborator supplied — the
other categories are not "unaffected". -/
theorem c5_counterexample :
    alistLookup (aggregation_iteration c5s0 0 (.error ()) (.ok 12) (.ok [])
        (.ok 13) (.ok 14)).aggregated_metrics "bandwidth" = some (.val 4) ∧
    ¬ alistLookup (aggregation_iteration c5s0 0 (.error ()) (.ok 12) (.ok [])
        (.ok 13) (.ok 14)).aggregated_metrics "bandwidth" = some (.val 14) := by
  decide

/-- C5 (amended): an exception while composing one category always leaves
that category with its last successfully published value, but isolation
only holds for the traffic category, whose update catches its own
exceptions: (a) if the traffic collaborator raises, the traffic categories
retain their old values and the device, performance and bandwidth
categories still refresh; (b) if the device update raises, the loop-level
handler aborts the iteration and nothing at all refreshes; (c) if the
performance update raises, the due bandwidth update is skipped as well. -/
theorem c5_aggregation_fault_isolation (m : AList SnapVal) (d p b : Nat)
    (cs : Except Unit (List Conn)) (proto : Except Unit Nat)
    (connStats cs' : Except Unit (List Conn)) (perf bw bw' : Except Unit Nat) :
    (alistLookup (aggregation_iteration ⟨m, []⟩ 0 (.ok d) (.error ()) cs
        (.ok p) (.ok b)).aggregated_metrics "devices" = some (.val d) ∧
      alistLookup (aggregation_iteration ⟨m, []⟩ 0 (.ok d) (.error ()) cs
        (.ok p) (.ok b)).aggregated_metrics "protocol_distribution"
        = alistLookup m "protocol_distribution" ∧
      alistLookup (aggregation_iteration ⟨m, []⟩ 0 (.ok d) (.error ()) cs
        (.ok p) (.ok b)).aggregated_metrics "recent_connections"
        = alistLookup m "recent_connections" ∧
      alistLookup (aggregation_iteration ⟨m, []⟩ 0 (.ok d) (.error ()) cs
        (.ok p) (.ok b)).aggregated_metrics "performance" = some (.val p) ∧
      alistLookup (aggregation_iteration ⟨m, []⟩ 0 (.ok d) (.error ()) cs
        (.ok p) (.ok b)).aggregated_metrics "bandwidth" = some (.val b)) ∧
    aggregation_iteration ⟨m, []⟩ 0 (.error ()) proto connStats perf bw = ⟨m, []⟩ ∧
    alistLookup (aggregation_iteration ⟨m, []⟩ 0 (.ok d) (.error ()) cs'
        (.error ()) bw').aggregated_metrics "bandwidth" = alistLookup m "bandwidth" := by
  have hshape : aggregation_iteration ⟨m, []⟩ 0 (.ok d) (.error ()) cs (.ok p) (.ok b)
      = ⟨alistSet (alistSet (alistSet m "devices" (.val d)) "performance" (.val p))
          "bandwidth" (.val b),
        [("device_metrics", 0), ("traffic_metrics", 0), ("performance_metrics", 0),
          ("bandwidth_metrics", 0)]⟩ := rfl
  have hshape3 : aggregation_iteration ⟨m, []⟩ 0 (.ok d) (.error ()) cs' (.error ()) bw'
      = ⟨alistSet m "devices" (.val d),
        [("device_metrics", 0), ("traffic_metrics", 0)]⟩ := rfl
  refine ⟨⟨?_, ?_, ?_, ?_, ?_⟩, rfl, ?_⟩
  · rw [hshape]
    show alistLookup _ "devices" = _
    rw [alistLookup_set_other _ "bandwidth" "devices" _ (by decide),
      alistLookup_set_other _ "performance" "devices" _ (by decide),
      alistLookup_set_same]
  · rw [hshape]
    show alistLookup _ "protocol_distribution" = _
    rw [alistLookup_set_other _ "bandwidth" "protocol_distribution" _ (by decide),
      alistLookup_set_other _ "performance" "protocol_distribution" _ (by decide),
      alistLookup_set_other _ "devices" "protocol_distribution" _ (by decide)]
  · rw [hshape]
    show alistLookup _ "recent_connections" = _
    rw [alistLookup_set_other _ "bandwidth" "recent_connections" _ (by decide),
      alistLookup_set_other _ "performance" "recent_connections" _ (by decide),
      alistLookup_set_other _ "devices" "recent_connections" _ (by decide)]
  · rw [hshape]
    show alistLookup _ "performance" = _
    rw [alistLookup_set_other _ "bandwidth" "performance" _ (by decide),
      alistLookup_set_same]
  · rw [hshape]
    show alistLookup _ "bandwidth" = _
    rw [alistLookup_set_same]
  · rw [hshape3]
    show alistLookup _ "bandwidth" = _
    rw [alistLookup_set_other _ "devices" "bandwidth" _ (by decide)]

/-- C6: adding a monitoring target is idempotent — for every target, adding
it twice leaves the registry with exactly one entry for it, and the second
add (indeed any add) leaves every metric history and the retry counter
unchanged. -/
theorem c6_idempotent_target_add (s : PMState) (h : String)
    (hcount : s.common_destinations.count h ≤ 1) :
    add_monitoring_target (add_monitoring_target s h) h = add_monitoring_target s h ∧
    (add_monitoring_target (add_monitoring_target s h) h).common_destinations.count h = 1 ∧
    ((add_monitoring_target s h).latency = s.latency ∧
      (add_monitoring_target s h).packet_loss = s.packet_loss ∧
      (add_monitoring_target s h).dns_resolution = s.dns_resolution ∧
      (add_monitoring_target s h).jitter = s.jitter ∧
      (add_monitoring_target s h).connection_times = s.connection_times ∧
      (add_monitoring_target s h).historical_metrics = s.historical_metrics ∧
      (add_monitoring_target s h).connection_retries = s.connection_retries) := by
  by_cases hs : h ∈ s.common_destinations
  · have hone : s.common_destinations.count h = 1 := by
      have := List.count_pos_iff.mpr hs
      omega
    simp [add_monitoring_target, hs, hone]
  · have hzero : s.common_destinations.count h = 0 :=
      List.count_eq_zero_of_not_mem hs
    have hmem : h ∈ s.common_destinations ++ [h] := by simp
    simp [add_monitoring_target, hs, hmem, hzero, List.count_append,
      List.count_singleton_self]

/-- C6 witness: adding example.com twice to a fresh monitor leaves exactly
one registry entry for it. -/
theorem c6_idempotent_target_add_witness :
    (add_monitoring_target (add_monitoring_target pmInit "example.com")
      "example.com").common_destinations.count "example.com" = 1 :=
  (c6_idempotent_target_add pmInit "example.com" (by decide)).2.1

/-- Models `measureLatencyHost` never touches the DNS-resolution ring. -/
theorem measureLatencyHost_dns (s : PMState) (host : String) (r : PingOutcome) (t : Nat) :
    (measureLatencyHost s host r t).dns_resolution = s.dns_resolution := by
  rcases hr : ping_host r with ⟨avg, loss⟩
  cases avg <;> cases loss <;>
    simp [measureLatencyHost, hr, recordLatency, recordPacketLoss]

/-- Models `add_monitoring_target` never touches the DNS-resolution ring. -/
theorem add_monitoring_target_dns (s : PMState) (host : String) :
    (add_monitoring_target s host).dns_resolution = s.dns_resolution := by
  unfold add_monitoring_target
  split <;> rfl

/-- C7: adding a target forces one immediate latency measurement, and a
DNS-resolution measurement exactly when the target is not a literal
address: adding 8.8.8.8 leaves the DNS ring untouched whatever the probe
outcomes, adding example.com with a successful resolution appends to its
DNS ring, and the warm-up with failing probes degrades to recording
nothing at all (the function is total — nothing is raised). -/
theorem c7_literal_address_gating (s : PMState) (ping : PingOutcome)
    (dnsRes : Option ℚ) (t : Nat) (v : ℚ) :
    (∀ target, (ProbeKind.dns ∈ add_performance_target_probes target ↔
        is_ip_address target = false) ∧
      ProbeKind.latency ∈ add_performance_target_probes target) ∧
    (add_performance_target s "8.8.8.8" ping dnsRes t).dns_resolution = s.dns_resolution ∧
    (add_performance_target s "example.com" ping (some v) t).dns_resolution
      = ringAppend 50 s.dns_resolution "example.com" v ∧
    add_performance_target s "example.com" .otherError none t
      = add_monitoring_target s "example.com" := by
  refine ⟨?_, ?_, ?_, ?_⟩
  · intro target
    constructor
    · by_cases hip : is_ip_address target <;>
        simp [add_performance_target_probes, hip]
    · simp [add_performance_target_probes]
  · have hip : is_ip_address "8.8.8.8" = true := by decide
    simp [add_performance_target, hip, measure_latency, measureLatencyHost_dns,
      add_monitoring_target_dns]
  · have hip : is_ip_address "example.com" = false := by decide
    simp [add_performance_target, hip, measure_latency, measure_dns_resolution,
      measureDnsHost, recordDnsResolution, measureLatencyHost_dns,
      add_monitoring_target_dns]
  · rfl

/-- C8: a ping probe exiting with non-zero status records a packet-loss
value of 100 and no latency sample for that cycle, and the sweep simply
continues — a following host in the same sweep still gets its successful
latency sample recorded. -/
theorem c8_unreachable_probe (s : PMState) (h1 h2 : String) (t : Nat) (l p : ℚ) :
    alistGetD (measureLatencyHost s h1 .calledProcessError t).packet_loss h1 []
      = dequeAppend 50 (alistGetD s.packet_loss h1 []) 100 ∧
    (measureLatencyHost s h1 .calledProcessError t).latency = s.latency ∧
    alistGetD (measure_latency s
        [(h1, .calledProcessError), (h2, .parsed (some l) (some p))] t).latency h2 []
      = dequeAppend 100 (alistGetD s.latency h2 []) l := by
  refine ⟨?_, rfl, ?_⟩
  · simp [measureLatencyHost, ping_host, recordPacketLoss, alistGetD_ringAppend_same]
  · simp [measure_latency, measureLatencyHost, ping_host, recordLatency,
      recordPacketLoss, alistGetD_ringAppend_same]

/-- C9: recording latency samples 10, 20, 30 for 1.1.1.1 into an empty
store makes the latency summary report current 30, min 10, max 30, mean 20
and median 20, computed from the full ring, with the three timestamped
samples as history; on the empty store the summary reports no entry for
the target at all. -/
theorem c9_latency_summary :
    (get_latency_metrics c9state (some "1.1.1.1")).2
      = [("1.1.1.1",
          { current := 30, min := 10, max := 30, avg := 20, median := some 20,
            history := [⟨0, 10⟩, ⟨1, 20⟩, ⟨2, 30⟩], retry_attempts := none })] ∧
    (get_latency_metrics pmInit (some "1.1.1.1")).2 = [] := by
  constructor
  · have e : (get_latency_metrics c9state (some "1.1.1.1")).2
        = [("1.1.1.1",
            { current := 30, min := listMin [10, 20, 30], max := listMax [10, 20, 30],
              avg := mean [10, 20, 30], median := some (median [10, 20, 30]),
              history := [⟨0, 10⟩, ⟨1, 20⟩, ⟨2, 30⟩], retry_attempts := none })] := rfl
    rw [e]
    norm_num [listMin, listMax, mean, median, sortAsc, insertSorted, min_def, max_def]
  · rfl

/-- C10: for a host with no recorded sample and no retry entry, every read
is total and effect-free: each per-metric getter returns the empty mapping
and leaves the state exactly unchanged, the retry-count query returns 0,
and `get_metrics` on an unknown category returns a fresh empty mapping
while leaving the aggregated snapshot contents unchanged. -/
theorem c10_unknown_key_reads (s : PMState) (nm : NMState) (h c : String)
    (hl : alistLookup s.latency h = none)
    (hp : alistLookup s.packet_loss h = none)
    (hd : alistLookup s.dns_resolution h = none)
    (hj : alistLookup s.jitter h = none)
    (hc : alistLookup s.connection_times h = none)
    (hr : alistLookup s.connection_retries h = none)
    (hm : alistLookup (aggContents nm) c = none)
    (hwf : (heapLookup nm.heap nm.aggregated_metrics).isSome = true)
    (hfresh : heapLookup nm.heap nm.next = none) :
    get_latency_metrics s (some h) = (s, []) ∧
    get_packet_loss_metrics s (some h) = (s, []) ∧
    get_jitter_metrics s (some h) = (s, []) ∧
    get_dns_resolution_metrics s (some h) = (s, []) ∧
    get_connection_time_metrics s (some h) = (s, []) ∧
    measure_retries s h = 0 ∧
    heapGetD (get_metrics nm (some c)).1 (get_metrics nm (some c)).2 = [] ∧
    aggContents (get_metrics nm (some c)).1 = aggContents nm := by
  obtain ⟨dagg, hdagg⟩ := Option.isSome_iff_exists.mp hwf
  have hkeep : heapLookup (nm.heap ++ [(nm.next, [])]) nm.aggregated_metrics = some dagg :=
    heapLookup_append_of_some _ _ _ _ hdagg
  have haggc : aggContents nm = dagg := by
    simp [aggContents, heapGetD, hdagg]
  have hfreshget : heapLookup (nm.heap ++ [(nm.next, [])]) nm.next = some [] :=
    heapLookup_append_fresh _ _ _ hfresh
  refine ⟨?_, ?_, ?_, ?_, ?_, ?_, ?_, ?_⟩
  · simp [get_latency_metrics, hl]
  · simp [get_packet_loss_metrics, hp]
  · simp [get_jitter_metrics, hj]
  · simp [get_dns_resolution_metrics, hd]
  · simp [get_connection_time_metrics, hc]
  · simp [measure_retries, alistGetD, hr]
  · simp [get_metrics, heapAlloc, heapGetD, hkeep, hfreshget, ← haggc, hm]
  · simp [get_metrics, heapAlloc, aggContents, heapGetD, hkeep, hdagg]

/-- C10 witness: the fresh monitor and fresh manager satisfy all the
absence hypotheses for host 10.9.9.9 and category nosuch. -/
theorem c10_unknown_key_reads_witness :
    measure_retries pmInit "10.9.9.9" = 0 ∧
    aggContents (get_metrics nmInit (some "nosuch")).1 = aggContents nmInit :=
  ⟨(c10_unknown_key_reads pmInit nmInit "10.9.9.9" "nosuch" rfl rfl rfl rfl rfl rfl
      (by decide) (by decide) (by decide)).2.2.2.2.2.1,
    (c10_unknown_key_reads pmInit nmInit "10.9.9.9" "nosuch" rfl rfl rfl rfl rfl rfl
      (by decide) (by decide) (by decide)).2.2.2.2.2.2.2⟩

end NetVision
